import Mathlib

/-! Guard command surface: installer, init client, get token.

A shallow embedding of `cmds/installer.go`, `cmds/initclient.go` and
`cmds/token.go`.  Go strings are Lean strings (the characters searched for are
ASCII, so positions counted in characters cut a string where Go's byte
positions do), `[]byte` values are lists of bytes, Go's `int` is a 64-bit
two's-complement integer represented by an `Int` inside its range, a Go
function that returns `(value, err)` returns a pair whose second component is
the error or `none`, and a command's `Run` closure is a function from the
command's flags plus the answers of its collaborators (certificate store,
filesystem, YAML marshaller, token issuers) to the ordered list of
collaborator calls it makes and the way the process ends.
-/

set_option linter.dupNamespace false

namespace Guard

/-! ## Go standard library: `net.SplitHostPort`, `strconv.Atoi`, `int32(_)` -/

/-- Byte strings (`[]byte`). -/
abbrev Bytes := List UInt8

/-- The `Err` text of a `*net.AddrError`. -/
inductive AddrError where
  | missingPort
  | tooManyColons
  | missingBracket
  | unexpectedOpen
  | unexpectedClose
  deriving DecidableEq, Repr

/-- Index of the first occurrence of `c` (`bytealg.IndexByteString`), `none` for Go's `-1`. -/
def indexByte (c : Char) : List Char → Option Nat
  | [] => none
  | x :: xs => if x = c then some 0 else (indexByte c xs).map (· + 1)

/-- Index of the last occurrence of `c` (`net.last`), `none` for Go's `-1`. -/
def lastIndex (c : Char) : List Char → Option Nat
  | [] => none
  | x :: xs =>
    match lastIndex c xs with
    | some i => some (i + 1)
    | none => if x = c then some 0 else none

/-- The checks shared by both branches of `net.SplitHostPort`: no `[` from
offset `j`, no `]` from offset `k`, and the port is what follows index `i`. -/
def splitTail (hostport : List Char) (host : List Char) (i j k : Nat) :
    String × String × Option AddrError :=
  if (indexByte '[' (hostport.drop j)).isSome then ("", "", some .unexpectedOpen)
  else if (indexByte ']' (hostport.drop k)).isSome then ("", "", some .unexpectedClose)
  else (String.mk host, String.mk (hostport.drop (i + 1)), none)

/-- Go's `net.SplitHostPort`: it returns `(host, port, err)`, with both strings
empty whenever `err` is set. -/
def SplitHostPort (hostport : String) : String × String × Option AddrError :=
  let s := hostport.data
  match lastIndex ':' s with
  | none => ("", "", some .missingPort)
  | some i =>
    if s.head? = some '[' then
      match indexByte ']' s with
      | none => ("", "", some .missingBracket)
      | some e =>
        if e + 1 = s.length then ("", "", some .missingPort)
        else if e + 1 = i then splitTail s ((s.take e).drop 1) i 1 (e + 1)
        else if s.get? (e + 1) = some ':' then ("", "", some .tooManyColons)
        else ("", "", some .missingPort)
    else
      let host := s.take i
      if (indexByte ':' host).isSome then ("", "", some .tooManyColons)
      else splitTail s host i 0 0

/-- The two errors of package `strconv`: `ErrSyntax` and `ErrRange`. -/
inductive NumError where
  | errSyntax
  | errRange
  deriving DecidableEq, Repr

/-- Width of Go's `int` on the 64-bit platforms the tool is built for. -/
def intSize : Nat := 64

/-- Largest `uint64`. -/
def maxUint64 : Nat := 2 ^ 64 - 1

/-- The loop of `strconv.ParseUint(s, 10, 64)`: `n` is the value read so far. -/
def parseUintLoop : List Char → Nat → Nat × Option NumError
  | [], n => (n, none)
  | c :: cs, n =>
    if 48 ≤ c.toNat ∧ c.toNat ≤ 57 then
      if n ≥ maxUint64 / 10 + 1 then (maxUint64, some .errRange)
      else
        let n1 := n * 10 + (c.toNat - 48)
        if n1 > maxUint64 then (maxUint64, some .errRange)
        else parseUintLoop cs n1
    else (0, some .errSyntax)

/-- Go's `strconv.ParseUint(s, 10, 64)`. -/
def ParseUint (s : List Char) : Nat × Option NumError :=
  match s with
  | [] => (0, some .errSyntax)
  | _ => parseUintLoop s 0

/-- Go's `strconv.ParseInt(s, 10, 0)` on a 64-bit platform. -/
def ParseInt (s : List Char) : Int × Option NumError :=
  match s with
  | [] => (0, some .errSyntax)
  | c :: cs =>
    let neg := decide (c = '-')
    let digits := if c = '+' ∨ c = '-' then cs else s
    match ParseUint digits with
    | (_, some .errSyntax) => (0, some .errSyntax)
    | (un, _) =>
      let cutoff : Nat := 2 ^ (intSize - 1)
      if !neg ∧ un ≥ cutoff then ((cutoff : Int) - 1, some .errRange)
      else if neg ∧ un > cutoff then (-(cutoff : Int), some .errRange)
      else (if neg then -(un : Int) else (un : Int), none)

/-- Go's `strconv.Atoi`: `ParseInt(s, 10, 0)` converted to `int`; it returns
`(value, err)`.  (Later Go releases add a fast path for short strings that
computes the same result.) -/
def Atoi (s : String) : Int × Option NumError :=
  ParseInt s.data

/-- Go's conversion `int32(v)` of an `int`: keep the low 32 bits, two's complement. -/
def int32 (v : Int) : Int :=
  (v + 2 ^ 31) % 2 ^ 32 - 2 ^ 31

/-! ## Kubernetes API types (the fields the commands populate) -/

/-- A Go `map[string]string`, written as the list of its entries. -/
abbrev Labels := List (String × String)

/-- The type `metav1.ObjectMeta`. -/
structure ObjectMeta where
  Name : String := ""
  Namespace : String := ""
  Labels : Labels := []
  deriving DecidableEq, Repr

/-- The type `core.Namespace`. -/
structure Namespace where
  ObjectMeta : ObjectMeta
  deriving DecidableEq, Repr

/-- The type `core.Secret`; `Data` is the list of entries of the Go map. -/
structure Secret where
  ObjectMeta : ObjectMeta
  Data : List (String × Bytes)
  deriving DecidableEq, Repr

/-- The type `core.ServiceAccount`. -/
structure ServiceAccount where
  ObjectMeta : ObjectMeta
  deriving DecidableEq, Repr

/-- The type `rbac.PolicyRule`. -/
structure PolicyRule where
  APIGroups : List String
  Resources : List String
  Verbs : List String
  deriving DecidableEq, Repr

/-- The type `rbac.ClusterRole`. -/
structure ClusterRole where
  ObjectMeta : ObjectMeta
  Rules : List PolicyRule
  deriving DecidableEq, Repr

/-- The type `rbac.RoleRef`. -/
structure RoleRef where
  APIGroup : String
  Kind : String
  Name : String
  deriving DecidableEq, Repr

/-- The type `rbac.Subject`. -/
structure Subject where
  Kind : String
  Name : String
  Namespace : String
  deriving DecidableEq, Repr

/-- The type `rbac.ClusterRoleBinding`. -/
structure ClusterRoleBinding where
  ObjectMeta : ObjectMeta
  RoleRef : RoleRef
  Subjects : List Subject
  deriving DecidableEq, Repr

/-- The type `core.ContainerPort`. -/
structure ContainerPort where
  Name : String
  Protocol : String
  ContainerPort : Int
  deriving DecidableEq, Repr

/-- The type `core.VolumeMount`. -/
structure VolumeMount where
  Name : String
  MountPath : String
  deriving DecidableEq, Repr

/-- The type `core.Container`. -/
structure Container where
  Name : String
  Image : String
  Args : List String
  Ports : List ContainerPort
  VolumeMounts : List VolumeMount
  deriving DecidableEq, Repr

/-- The type `core.SecretVolumeSource`. -/
structure SecretVolumeSource where
  SecretName : String
  DefaultMode : Option Int
  deriving DecidableEq, Repr

/-- The type `core.Volume`; `Secret` is the field of the embedded `VolumeSource`. -/
structure Volume where
  Name : String
  Secret : Option SecretVolumeSource
  deriving DecidableEq, Repr

/-- The type `core.PodSpec`. -/
structure PodSpec where
  ServiceAccountName : String := ""
  Containers : List Container
  Volumes : List Volume
  deriving DecidableEq, Repr

/-- The type `core.PodTemplateSpec`. -/
structure PodTemplateSpec where
  ObjectMeta : ObjectMeta
  Spec : PodSpec
  deriving DecidableEq, Repr

/-- The type `metav1.LabelSelector` (its `MatchLabels`). -/
structure LabelSelector where
  MatchLabels : Labels
  deriving DecidableEq, Repr

/-- The type `apps/v1beta1.DeploymentSpec`: `Selector` is a pointer, `none` is Go's `nil`,
the value of a field that a composite literal does not mention. -/
structure DeploymentSpec where
  Replicas : Option Int := none
  Selector : Option LabelSelector := none
  Template : PodTemplateSpec
  deriving DecidableEq, Repr

/-- The type `apps/v1beta1.Deployment`. -/
structure Deployment where
  ObjectMeta : ObjectMeta
  Spec : DeploymentSpec
  deriving DecidableEq, Repr

/-- The type `intstr.IntOrString`. -/
inductive IntOrString where
  | int (v : Int)
  | str (s : String)
  deriving DecidableEq, Repr

/-- The type `core.ServicePort`. -/
structure ServicePort where
  Name : String
  Port : Int
  Protocol : String
  TargetPort : IntOrString
  deriving DecidableEq, Repr

/-- The type `core.ServiceSpec`. -/
structure ServiceSpec where
  Type_ : String
  ClusterIP : String
  Ports : List ServicePort
  Selector : Labels
  deriving DecidableEq, Repr

/-- The type `core.Service`. -/
structure Service where
  ObjectMeta : ObjectMeta
  Spec : ServiceSpec
  deriving DecidableEq, Repr

/-- A `runtime.Object` built by the installer. -/
inductive Object where
  | ofNamespace (o : Namespace)
  | ofServiceAccount (o : ServiceAccount)
  | ofClusterRole (o : ClusterRole)
  | ofClusterRoleBinding (o : ClusterRoleBinding)
  | ofSecret (o : Secret)
  | ofDeployment (o : Deployment)
  | ofService (o : Service)
  deriving DecidableEq, Repr

/-- The type `schema.GroupVersion`. -/
structure GroupVersion where
  Group : String
  Version : String
  deriving DecidableEq, Repr

namespace core

/-- The constant `core.NamespaceDefault`. -/
def NamespaceDefault : String := "default"

/-- The constant `core.GroupName`. -/
def GroupName : String := ""

/-- The constant `core.ProtocolTCP`. -/
def ProtocolTCP : String := "TCP"

/-- The constant `core.ServiceTypeClusterIP`. -/
def ServiceTypeClusterIP : String := "ClusterIP"

/-- The variable `core.SchemeGroupVersion`. -/
def SchemeGroupVersion : GroupVersion := ⟨GroupName, "v1"⟩

end core

namespace rbac

/-- The constant `rbac.GroupName`. -/
def GroupName : String := "rbac.authorization.k8s.io"

/-- The constant `rbac.ServiceAccountKind`. -/
def ServiceAccountKind : String := "ServiceAccount"

/-- The variable `rbac.SchemeGroupVersion` of `rbac/v1beta1`. -/
def SchemeGroupVersion : GroupVersion := ⟨GroupName, "v1beta1"⟩

end rbac

namespace apps

/-- The variable `apps.SchemeGroupVersion` of `apps/v1beta1`. -/
def SchemeGroupVersion : GroupVersion := ⟨"apps", "v1beta1"⟩

end apps

/-! ## `cmds/installer.go`: the object builders -/

/-- Package-level values the installer reads that are declared in other files
of package `cmds`: the `--pki-dir` variable, the two container port numbers,
and the build version `v.Version.Version`. -/
structure Globals where
  rootDir : String
  webPort : Int
  opsPort : Int
  version : String
  deriving DecidableEq, Repr

/-- The helper `stringz.Val(v, def)`: `v`, or `def` when `v` is empty. -/
def stringzVal (v d : String) : String :=
  if v = "" then d else v

/-- The package variable `labels`. -/
def labels : Labels := [("app", "guard")]

/-- The function `newNamespace`. -/
def newNamespace (ns : String) : Namespace :=
  { ObjectMeta := { Name := ns, Labels := labels } }

/-- The function `newSecret`. -/
def newSecret (ns : String) (cert key caCert : Bytes) : Secret :=
  { ObjectMeta := { Name := "guard-pki", Namespace := ns, Labels := labels }
    Data := [("ca.crt", caCert), ("tls.crt", cert), ("tls.key", key)] }

/-- The function `newDeployment`. -/
def newDeployment (g : Globals) (ns : String) (enableRBAC enableTokenAuth : Bool) : Deployment :=
  let c : Container :=
    { Name := "guard"
      Image := "appscode/guard:" ++ stringzVal g.version "canary"
      Args := ["run", "--v=3", "--ca-cert-file=/etc/guard/pki/ca.crt",
        "--cert-file=/etc/guard/pki/tls.crt", "--key-file=/etc/guard/pki/tls.key"]
      Ports := [⟨"web", core.ProtocolTCP, g.webPort⟩, ⟨"ops", core.ProtocolTCP, g.opsPort⟩]
      VolumeMounts := [⟨"guard-pki", "/etc/guard/pki"⟩] }
  let d : Deployment :=
    { ObjectMeta := { Name := "guard", Namespace := ns, Labels := labels }
      Spec :=
        { Replicas := some 1
          Template :=
            { ObjectMeta := { Labels := labels }
              Spec :=
                { Containers := [c]
                  Volumes := [⟨"guard-pki", some ⟨"guard-pki", some 0o555⟩⟩] } } } }
  let d : Deployment :=
    if enableRBAC then
      { d with Spec.Template.Spec.ServiceAccountName := "guard" }
    else d
  let d : Deployment :=
    if enableTokenAuth then
      let volMount : VolumeMount := ⟨"guard-token-auth", "/etc/guard/auth"⟩
      let vol : Volume := ⟨"guard-token-auth", some ⟨"guard-token-auth", some 0o555⟩⟩
      { d with
        Spec.Template.Spec.Containers :=
          d.Spec.Template.Spec.Containers.modifyHead fun c0 =>
            { c0 with
              Args := c0.Args ++ ["--token-auth-file=/etc/guard/auth/token.csv"]
              VolumeMounts := c0.VolumeMounts ++ [volMount] }
        Spec.Template.Spec.Volumes := d.Spec.Template.Spec.Volumes ++ [vol] }
    else d
  d

/-- The function `newService`. -/
def newService (ns addr : String) : Service :=
  let host := (SplitHostPort addr).1
  let port := (SplitHostPort addr).2.1
  let svcPort := (Atoi port).1
  { ObjectMeta := { Name := "guard", Namespace := ns, Labels := labels }
    Spec :=
      { Type_ := core.ServiceTypeClusterIP
        ClusterIP := host
        Ports := [⟨"web", int32 svcPort, core.ProtocolTCP, .str "web"⟩]
        Selector := labels } }

/-- The function `newServiceAccount`. -/
def newServiceAccount (ns : String) : ServiceAccount :=
  { ObjectMeta := { Name := "guard", Namespace := ns, Labels := labels } }

/-- The function `newClusterRole`. -/
def newClusterRole (ns : String) : ClusterRole :=
  { ObjectMeta := { Name := "guard", Namespace := ns, Labels := labels }
    Rules := [⟨[core.GroupName], ["nodes"], ["list"]⟩] }

/-- The function `newClusterRoleBinding`. -/
def newClusterRoleBinding (ns : String) : ClusterRoleBinding :=
  { ObjectMeta := { Name := "guard", Namespace := ns, Labels := labels }
    RoleRef := ⟨rbac.GroupName, "ClusterRole", "guard"⟩
    Subjects := [⟨rbac.ServiceAccountKind, "guard", ns⟩] }

/-- The function `newSecretForTokenAuth`. -/
def newSecretForTokenAuth (ns : String) (tokenFile : Bytes) : Secret :=
  { ObjectMeta := { Name := "guard-token-auth", Namespace := ns, Labels := labels }
    Data := [("token.csv", tokenFile)] }

/-! ## Process model -/

/-- The token issuers that `get token` can call. -/
inductive Provider where
  | github
  | gitlab
  | google
  | appscode
  | ldap
  deriving DecidableEq, Repr

/-- The type `x509.ExtKeyUsage`. -/
inductive ExtKeyUsage where
  | ExtKeyUsageAny
  | ExtKeyUsageServerAuth
  | ExtKeyUsageClientAuth
  | ExtKeyUsageCodeSigning
  | ExtKeyUsageEmailProtection
  | ExtKeyUsageIPSECEndSystem
  | ExtKeyUsageIPSECTunnel
  | ExtKeyUsageIPSECUser
  | ExtKeyUsageTimeStamping
  | ExtKeyUsageOCSPSigning
  | ExtKeyUsageMicrosoftServerGatedCrypto
  | ExtKeyUsageNetscapeServerGatedCrypto
  deriving DecidableEq, Repr

/-- The type `cert.AltNames`. -/
structure AltNames where
  DNSNames : List String := []
  IPs : List String := []
  deriving DecidableEq, Repr

/-- The type `cert.Config`. -/
structure Config where
  CommonName : String := ""
  Organization : List String := []
  AltNames : AltNames := {}
  Usages : List ExtKeyUsage := []
  deriving DecidableEq, Repr

/-- A call a command makes to a collaborator, with the arguments it passes. -/
inductive Event where
  | NewCertStore (dir : String) (organization : List String)
  | PairExists (name : String)
  | ReadBytes (name : String)
  | LoadTokenFile (file : String)
  | ReadFile (file : String)
  | MarshalToYAML (obj : Object) (gv : GroupVersion)
  | Println (s : String)
  | IsExists (name : String)
  | Ask (location : String)
  | LoadCA
  | NewServerCertPair (commonName : String) (altNames : AltNames)
  | WriteBytes (name : String) (crt key : Bytes)
  | Successln (location : String)
  | IssueToken (p : Provider)
  deriving DecidableEq, Repr

/-- The ways a command stops before the end of `Run`: one constructor for each
`log.Fatal*` message of the three files (the process logs the message and exits
with a non-zero status) and one for `os.Exit`. -/
inductive Exit where
  /-- Message "Guard server address is invalid. Reason: %v." -/
  | addressInvalid (err : AddrError)
  /-- Message "Guard server port is invalid. Reason: %v." -/
  | portInvalid (err : NumError)
  /-- Message "Failed to create certificate store. Reason: %v." -/
  | createStore (err : String)
  /-- Message "CA certificates not found in %s. Run `guard init ca`" -/
  | caNotFound (location : String)
  /-- Message "Server certificate not found in %s. Run `guard init server`" -/
  | serverNotFound (location : String)
  /-- Message "Failed to load ca certificate. Reason: %v." -/
  | loadCACertificate (err : String)
  /-- The call `log.Fatalln(err)`, and `log.Fatal(err)`. -/
  | fatal (err : String)
  /-- Message "Missing client name." -/
  | missingClientName
  /-- Message "Multiple client name found." -/
  | multipleClientName
  /-- Message "Missing organization name. Set flag -o Google|Github." -/
  | missingOrganization
  /-- Message "Unknown organization %s." -/
  | unknownOrganization (org : String)
  /-- Message "Failed to generate certificate pair. Reason: %v." -/
  | generatePair (err : String)
  /-- Message "Failed to init client certificate pair. Reason: %v." -/
  | initClientPair (err : String)
  /-- The call `log.Fatal("For LDAP:", err)`. -/
  | fatalLDAP (err : String)
  /-- The call `os.Exit(code)`. -/
  | osExit (code : Nat)
  deriving DecidableEq, Repr

/-- A run of (a part of) a command: the collaborator calls made, in order, and
either the value computed or the early stop that ended the process. -/
structure Proc (α : Type) where
  events : List Event
  result : Except Exit α

namespace Proc

/-- Sequencing: a stopped process runs nothing further. -/
def andThen {α β : Type} (p : Proc α) (f : α → Proc β) : Proc β :=
  match p.result with
  | .error e => ⟨p.events, .error e⟩
  | .ok a => ⟨p.events ++ (f a).events, (f a).result⟩

instance : Monad Proc where
  pure a := ⟨[], .ok a⟩
  bind := andThen

/-- A collaborator call `e` that answers `a`. -/
def call {α : Type} (e : Event) (a : α) : Proc α := ⟨[e], .ok a⟩

/-- An early stop of the process. -/
def stop {α : Type} (e : Exit) : Proc α := ⟨[], .error e⟩

end Proc

/-- The lines written to standard output, in order (`fmt.Println` ends each one
with a newline). -/
def printed (events : List Event) : List String :=
  events.filterMap fun e =>
    match e with
    | .Println s => some s
    | _ => none

/-! ## `cmds/installer.go`: the command -/

/-- The flags of `installer`: `--namespace`, `--addr`, `--rbac`, `--token-auth-file`. -/
structure InstallerFlags where
  ns : String := "kube-system"
  addr : String := "10.96.10.96:9844"
  enableRBAC : Bool := false
  tokenAuthFile : String := ""
  deriving DecidableEq, Repr

/-- The answers of the installer's collaborators: `filepath.Join`, the
certificate store (`certstore.NewCertStore` answers an error or none), the
token-file loader, the filesystem and the YAML marshaller. -/
structure InstallerEnv where
  Join : String → String → String
  NewCertStore : String → Option String
  PairExists : String → Bool
  Location : String
  ReadBytes : String → Except String (Bytes × Bytes)
  LoadTokenFile : String → Option String
  ReadFile : String → Except String Bytes
  MarshalToYAML : Object → GroupVersion → Except String String

/-- The block `data, err = meta.MarshalToYAML(obj, gv); if err != nil { log.Fatalln(err) }`. -/
def marshal (env : InstallerEnv) (obj : Object) (gv : GroupVersion) : Proc String := do
  match ← Proc.call (.MarshalToYAML obj gv) (env.MarshalToYAML obj gv) with
  | .error err => Proc.stop (.fatal err)
  | .ok data => pure data

/-- The `Run` closure of `NewCmdInstaller`. -/
def installer (g : Globals) (env : InstallerEnv) (f : InstallerFlags) : Proc Unit := do
  let port := (SplitHostPort f.addr).2.1
  match (SplitHostPort f.addr).2.2 with
  | some err => Proc.stop (.addressInvalid err)
  | none => pure ()
  match (Atoi port).2 with
  | some err => Proc.stop (.portInvalid err)
  | none => pure ()

  let dir := env.Join g.rootDir "pki"
  match ← Proc.call (.NewCertStore dir []) (env.NewCertStore dir) with
  | some err => Proc.stop (.createStore err)
  | none => pure ()
  if !(← Proc.call (.PairExists "ca") (env.PairExists "ca")) then
    Proc.stop (.caNotFound env.Location)
  if !(← Proc.call (.PairExists "server") (env.PairExists "server")) then
    Proc.stop (.serverNotFound env.Location)

  let caCert ←
    match ← Proc.call (.ReadBytes "ca") (env.ReadBytes "ca") with
    | .error err => Proc.stop (.loadCACertificate err)
    | .ok (crt, _) => pure crt
  let (serverCert, serverKey) ←
    match ← Proc.call (.ReadBytes "server") (env.ReadBytes "server") with
    | .error err => Proc.stop (.loadCACertificate err)
    | .ok pair => pure pair

  let mut buf : String := ""

  if f.ns ≠ "kube-system" ∧ f.ns ≠ core.NamespaceDefault then
    let data ← marshal env (.ofNamespace (newNamespace f.ns)) core.SchemeGroupVersion
    buf := buf ++ data
    buf := buf ++ "---\n"

  if f.enableRBAC then
    let data ← marshal env (.ofServiceAccount (newServiceAccount f.ns)) core.SchemeGroupVersion
    buf := buf ++ data
    buf := buf ++ "---\n"

    let data ← marshal env (.ofClusterRole (newClusterRole f.ns)) rbac.SchemeGroupVersion
    buf := buf ++ data
    buf := buf ++ "---\n"

    let data ← marshal env (.ofClusterRoleBinding (newClusterRoleBinding f.ns))
      rbac.SchemeGroupVersion
    buf := buf ++ data
    buf := buf ++ "---\n"

  let data ← marshal env (.ofSecret (newSecret f.ns serverCert serverKey caCert))
    core.SchemeGroupVersion
  buf := buf ++ data
  buf := buf ++ "---\n"

  if f.tokenAuthFile ≠ "" then
    match ← Proc.call (.LoadTokenFile f.tokenAuthFile) (env.LoadTokenFile f.tokenAuthFile) with
    | some err => Proc.stop (.fatal err)
    | none => pure ()
    let tokenData ←
      match ← Proc.call (.ReadFile f.tokenAuthFile) (env.ReadFile f.tokenAuthFile) with
      | .error err => Proc.stop (.fatal err)
      | .ok bytes => pure bytes
    let data ← marshal env (.ofSecret (newSecretForTokenAuth f.ns tokenData))
      core.SchemeGroupVersion
    buf := buf ++ data
    buf := buf ++ "---\n"

  let enableTokenAuth := decide (f.tokenAuthFile ≠ "")
  let data ← marshal env (.ofDeployment (newDeployment g f.ns f.enableRBAC enableTokenAuth))
    apps.SchemeGroupVersion
  buf := buf ++ data
  buf := buf ++ "---\n"

  let data ← marshal env (.ofService (newService f.ns f.addr)) core.SchemeGroupVersion
  buf := buf ++ data

  Proc.call (.Println buf) ()

/-- A store and filesystem in which everything is present and a marshaller that
names the kind of each object: used to run the installer on examples. -/
def sampleEnv : InstallerEnv where
  Join a b := a ++ "/" ++ b
  NewCertStore _ := none
  PairExists _ := true
  Location := "/pki"
  ReadBytes name := if name = "ca" then .ok ([1], [2]) else .ok ([3], [4])
  LoadTokenFile _ := none
  ReadFile _ := .ok [5]
  MarshalToYAML obj _ :=
    .ok (match obj with
      | .ofNamespace _ => "kind: Namespace\n"
      | .ofServiceAccount _ => "kind: ServiceAccount\n"
      | .ofClusterRole _ => "kind: ClusterRole\n"
      | .ofClusterRoleBinding _ => "kind: ClusterRoleBinding\n"
      | .ofSecret o => "kind: Secret # " ++ o.ObjectMeta.Name ++ "\n"
      | .ofDeployment _ => "kind: Deployment\n"
      | .ofService _ => "kind: Service\n")

/-- Sample values of the package-level variables. -/
def sampleGlobals : Globals := ⟨"/root/.guard", 9844, 56790, "0.1.0"⟩

/-- The objects MarshalToYAML was called on, in call order. -/
def marshalled (events : List Event) : List (Object × GroupVersion) :=
  events.filterMap fun e =>
    match e with
    | .MarshalToYAML obj gv => some (obj, gv)
    | _ => none

/-- The object set of the step list. -/
def manifestSet (g : Globals) (f : InstallerFlags) (caCert serverCert serverKey tokenData : Bytes) :
    List (Object × GroupVersion) :=
  (if f.ns ≠ "kube-system" ∧ f.ns ≠ "default" then
      [(Object.ofNamespace (newNamespace f.ns), core.SchemeGroupVersion)]
    else [])
  ++ (if f.enableRBAC then
      [(Object.ofServiceAccount (newServiceAccount f.ns), core.SchemeGroupVersion),
        (Object.ofClusterRole (newClusterRole f.ns), rbac.SchemeGroupVersion),
        (Object.ofClusterRoleBinding (newClusterRoleBinding f.ns), rbac.SchemeGroupVersion)]
    else [])
  ++ [(Object.ofSecret (newSecret f.ns serverCert serverKey caCert), core.SchemeGroupVersion)]
  ++ (if f.tokenAuthFile ≠ "" then
      [(Object.ofSecret (newSecretForTokenAuth f.ns tokenData), core.SchemeGroupVersion)]
    else [])
  ++ [(Object.ofDeployment (newDeployment g f.ns f.enableRBAC (decide (f.tokenAuthFile ≠ ""))),
        apps.SchemeGroupVersion),
      (Object.ofService (newService f.ns f.addr), core.SchemeGroupVersion)]

/-- Each object of a list serialised in its own schema version, or the first failure. -/
def marshalAll (env : InstallerEnv) : List (Object × GroupVersion) → Except String (List String)
  | [] => .ok []
  | (obj, gv) :: rest =>
    match env.MarshalToYAML obj gv with
    | .error err => .error err
    | .ok data =>
      match marshalAll env rest with
      | .error err => .error err
      | .ok docs => .ok (data :: docs)

/-! ## `cmds/initclient.go` -/

/-- Go's `strings.ToLower`: every rune replaced by its lower-case form, where
`lower` is the Unicode table `unicode.ToLower`. -/
def ToLower (lower : Char → Char) (s : String) : String :=
  String.mk (s.data.map lower)

/-- The answers of the collaborators of `init client`: the Unicode lower-case
table, `filepath.Join`, the function `filename` declared in another file of
package `cmds`, the certificate store and the terminal prompt `term.Ask`. -/
structure ClientEnv where
  lower : Char → Char
  Join : String → String → String
  filename : Config → String
  NewCertStore : String → List String → Option String
  IsExists : String → Bool
  Location : String
  Ask : String → Bool
  LoadCA : Option String
  NewServerCertPair : String → AltNames → Except String (Bytes × Bytes)
  WriteBytes : String → Bytes → Bytes → Option String

/-- Lines 25 to 49 of the `Run` closure of `NewCmdInitClient`: the checks on the
arguments and the organization flag, which build the certificate request. -/
def clientConfig (env : ClientEnv) (args : List String) (org : String) : Proc Config := do
  if args.length = 0 then
    Proc.stop .missingClientName
  if args.length > 1 then
    Proc.stop .multipleClientName

  let cfg : Config :=
    { CommonName := args.headD ""
      Usages := [.ExtKeyUsageClientAuth] }

  let org := ToLower env.lower org
  if org = "github" then
    pure { cfg with Organization := ["Github"] }
  else if org = "google" then
    pure { cfg with Organization := ["Google"] }
  else if org = "appscode" then
    pure { cfg with Organization := ["Appscode"] }
  else if org = "" then
    Proc.stop .missingOrganization
  else
    Proc.stop (.unknownOrganization org)

/-- Lines 51 to 73 of the `Run` closure of `NewCmdInitClient`: the store is
opened and the pair is issued for the request `cfg`. -/
def issueClient (g : Globals) (env : ClientEnv) (cfg : Config) : Proc Unit := do
  let dir := env.Join g.rootDir "pki"
  match ← Proc.call (.NewCertStore dir cfg.Organization)
      (env.NewCertStore dir cfg.Organization) with
  | some err => Proc.stop (.createStore err)
  | none => pure ()
  if ← Proc.call (.IsExists (env.filename cfg)) (env.IsExists (env.filename cfg)) then
    if !(← Proc.call (.Ask env.Location) (env.Ask env.Location)) then
      Proc.stop (.osExit 1)

  match ← Proc.call .LoadCA env.LoadCA with
  | some err => Proc.stop (.loadCACertificate err)
  | none => pure ()

  let (crt, key) ←
    match ← Proc.call (.NewServerCertPair cfg.CommonName cfg.AltNames)
        (env.NewServerCertPair cfg.CommonName cfg.AltNames) with
    | .error err => Proc.stop (.generatePair err)
    | .ok pair => pure pair
  match ← Proc.call (.WriteBytes (env.filename cfg) crt key)
      (env.WriteBytes (env.filename cfg) crt key) with
  | some err => Proc.stop (.initClientPair err)
  | none => pure ()
  Proc.call (.Successln env.Location) ()

/-- The `Run` closure of `NewCmdInitClient`. -/
def initClient (g : Globals) (env : ClientEnv) (args : List String) (org : String) :
    Proc Unit := do
  let cfg ← clientConfig env args org
  issueClient g env cfg

/-- Lower-casing of ASCII letters, the part of `unicode.ToLower` needed for examples. -/
def asciiLower (c : Char) : Char :=
  if 65 ≤ c.toNat ∧ c.toNat ≤ 90 then Char.ofNat (c.toNat + 32) else c

/-- A store with a CA and no earlier pair: used to run `init client` on examples. -/
def sampleClientEnv : ClientEnv where
  lower := asciiLower
  Join a b := a ++ "/" ++ b
  filename cfg := cfg.CommonName
  NewCertStore _ _ := none
  IsExists _ := false
  Location := "/pki"
  Ask _ := false
  LoadCA := none
  NewServerCertPair _ _ := .ok ([1], [2])
  WriteBytes _ _ _ := none

/-! ## `cmds/token.go` -/

namespace Provider

/-- Modelled from the spec: the constants `github.OrgType`, `gitlab.OrgType`,
`google.OrgType`, `appscode.OrgType` and `ldap.OrgType`, declared in the
provider packages, are the organization names the spec lists for `get token`. -/
def OrgType : Provider → String
  | .github => "github"
  | .gitlab => "gitlab"
  | .google => "google"
  | .appscode => "appscode"
  | .ldap => "ldap"

end Provider

/-- The answers of the collaborators of `get token`: the Unicode lower-case
table and the error (or none) each issuer that returns one comes back with. -/
structure TokenEnv where
  lower : Char → Char
  googleIssueToken : Option String
  appscodeIssueToken : Option String
  ldapIssueToken : Option String

/-- The `Run` closure of `NewCmdGetToken`, on the value of the `--organization` flag. -/
def getToken (env : TokenEnv) (org : String) : Proc Unit := do
  let org := ToLower env.lower org
  if org = Provider.github.OrgType then
    Proc.call (.IssueToken .github) ()
  else if org = Provider.gitlab.OrgType then
    Proc.call (.IssueToken .gitlab) ()
  else if org = Provider.google.OrgType then
    match ← Proc.call (.IssueToken .google) env.googleIssueToken with
    | some err => Proc.stop (.fatal err)
    | none => pure ()
  else if org = Provider.appscode.OrgType then
    match ← Proc.call (.IssueToken .appscode) env.appscodeIssueToken with
    | some err => Proc.stop (.fatal err)
    | none => pure ()
  else if org = Provider.ldap.OrgType then
    match ← Proc.call (.IssueToken .ldap) env.ldapIssueToken with
    | some err => Proc.stop (.fatalLDAP err)
    | none => pure ()
  else if org = "" then
    Proc.stop .missingOrganization
  else
    Proc.stop (.unknownOrganization org)

/-- Issuers that all succeed: used to run `get token` on examples. -/
def sampleTokenEnv : TokenEnv := ⟨asciiLower, none, none, none⟩

/-! ## Definitions used to state the properties -/

/-- A decimal digit, `'0'` to `'9'`. -/
def isDigit (c : Char) : Bool :=
  decide (48 ≤ c.toNat ∧ c.toNat ≤ 57)

/-- The number a string of decimal digits denotes. -/
def decimalValue (cs : List Char) : Nat :=
  cs.foldl (fun n c => n * 10 + (c.toNat - 48)) 0

/-- A non-empty string of decimal digits. -/
def isDigits (cs : List Char) : Bool :=
  !cs.isEmpty && cs.all isDigit

/-- The integer a port segment denotes when it is a decimal integer: digits
with an optional sign in front. -/
def signedDecimal (s : String) : Option Int :=
  match s.data with
  | [] => none
  | c :: cs =>
    if c = '-' then (if isDigits cs then some (-(decimalValue cs : Int)) else none)
    else if c = '+' then (if isDigits cs then some (decimalValue cs : Int) else none)
    else if isDigits (c :: cs) then some (decimalValue (c :: cs) : Int) else none

/-- The address passes the installer's validation: lines 40 to 47 of `installer.go`. -/
def addressAccepted (addr : String) : Prop :=
  (SplitHostPort addr).2.2 = none ∧ (Atoi (SplitHostPort addr).2.1).2 = none

instance (addr : String) : Decidable (addressAccepted addr) := by
  unfold addressAccepted
  exact inferInstance

/-- The range of Go's 64-bit `int`. -/
def inIntRange (v : Int) : Prop :=
  -(2 : Int) ^ 63 ≤ v ∧ v < 2 ^ 63

instance (v : Int) : Decidable (inIntRange v) := by
  unfold inIntRange
  exact inferInstance

/-- The address splits into host and port and the port segment is a decimal
integer that fits Go's 64-bit `int`. -/
def hostPortInRange (addr : String) : Prop :=
  (SplitHostPort addr).2.2 = none ∧
    ∃ v ∈ signedDecimal (SplitHostPort addr).2.1, inIntRange v

instance (addr : String) : Decidable (hostPortInRange addr) := by
  unfold hostPortInRange
  exact inferInstance

/-- The Secret objects of a list of objects, in order. -/
def secretsOf (objs : List (Object × GroupVersion)) : List Secret :=
  objs.filterMap fun o =>
    match o.1 with
    | .ofSecret s => some s
    | _ => none

/-- The Deployment objects of a list of objects, in order. -/
def deploymentsOf (objs : List (Object × GroupVersion)) : List Deployment :=
  objs.filterMap fun o =>
    match o.1 with
    | .ofDeployment d => some d
    | _ => none

/-- The ServiceAccount objects of a list of objects, in order. -/
def serviceAccountsOf (objs : List (Object × GroupVersion)) : List ServiceAccount :=
  objs.filterMap fun o =>
    match o.1 with
    | .ofServiceAccount d => some d
    | _ => none

/-- The ClusterRole objects of a list of objects, in order. -/
def clusterRolesOf (objs : List (Object × GroupVersion)) : List ClusterRole :=
  objs.filterMap fun o =>
    match o.1 with
    | .ofClusterRole d => some d
    | _ => none

/-- The ClusterRoleBinding objects of a list of objects, in order. -/
def clusterRoleBindingsOf (objs : List (Object × GroupVersion)) : List ClusterRoleBinding :=
  objs.filterMap fun o =>
    match o.1 with
    | .ofClusterRoleBinding d => some d
    | _ => none

/-! ## Lemmas on the process model -/

namespace Proc

/-- The run `p` preceded by the collaborator call `ev`. -/
def after {α : Type} (ev : Event) (p : Proc α) : Proc α := ⟨ev :: p.events, p.result⟩

theorem bind_def {α β : Type} (p : Proc α) (f : α → Proc β) : p >>= f = andThen p f := rfl

theorem pure_def {α : Type} (a : α) : (pure a : Proc α) = ⟨[], .ok a⟩ := rfl

@[simp]
theorem stop_bind {α β : Type} (e : Exit) (f : α → Proc β) :
    (stop e : Proc α) >>= f = stop e := rfl

@[simp]
theorem call_bind {α β : Type} (ev : Event) (a : α) (f : α → Proc β) :
    call ev a >>= f = after ev (f a) := rfl

@[simp]
theorem pure_bind_eq {α β : Type} (a : α) (f : α → Proc β) :
    (pure a : Proc α) >>= f = f a := by
  cases h : f a
  simp [bind_def, pure_def, andThen, h]

@[simp]
theorem after_events {α : Type} (ev : Event) (p : Proc α) :
    (after ev p).events = ev :: p.events := rfl

@[simp]
theorem after_result {α : Type} (ev : Event) (p : Proc α) :
    (after ev p).result = p.result := rfl

@[simp]
theorem stop_events {α : Type} (e : Exit) : (stop e : Proc α).events = [] := rfl

@[simp]
theorem stop_result {α : Type} (e : Exit) : (stop e : Proc α).result = .error e := rfl

@[simp]
theorem pure_events {α : Type} (a : α) : (pure a : Proc α).events = [] := rfl

@[simp]
theorem pure_result {α : Type} (a : α) : (pure a : Proc α).result = .ok a := rfl

@[simp]
theorem call_events {α : Type} (ev : Event) (a : α) : (call ev a).events = [ev] := rfl

@[simp]
theorem call_result {α : Type} (ev : Event) (a : α) : (call ev a).result = .ok a := rfl

end Proc

theorem marshal_bind {β : Type} (env : InstallerEnv) (obj : Object) (gv : GroupVersion)
    (k : String → Proc β) :
    marshal env obj gv >>= k =
      Proc.after (.MarshalToYAML obj gv)
        (match env.MarshalToYAML obj gv with
          | .error err => Proc.stop (.fatal err)
          | .ok data => k data) := by
  unfold marshal
  cases h : env.MarshalToYAML obj gv <;> simp [Proc.bind_def, Proc.andThen, Proc.call, Proc.after, Proc.stop, h, Proc.pure_def]

theorem installer_answers (g : Globals) (env : InstallerEnv) (f : InstallerFlags)
    (h : (installer g env f).result = .ok ()) :
    (SplitHostPort f.addr).2.2 = none ∧ (Atoi (SplitHostPort f.addr).2.1).2 = none ∧
    env.NewCertStore (env.Join g.rootDir "pki") = none ∧
    env.PairExists "ca" = true ∧ env.PairExists "server" = true ∧
    (∃ p, env.ReadBytes "ca" = .ok p) ∧ (∃ p, env.ReadBytes "server" = .ok p) ∧
    (f.tokenAuthFile ≠ "" →
      env.LoadTokenFile f.tokenAuthFile = none ∧ ∃ t, env.ReadFile f.tokenAuthFile = .ok t) := by
  unfold installer at h
  simp only [Proc.stop_bind, Proc.call_bind, Proc.pure_bind_eq, marshal_bind] at h
  repeat' split at h
  all_goals simp_all

theorem installer_objects (g : Globals) (env : InstallerEnv) (f : InstallerFlags)
    (caCert caKey serverCert serverKey tokenData : Bytes)
    (h : (installer g env f).result = .ok ())
    (hca : env.ReadBytes "ca" = .ok (caCert, caKey))
    (hsrv : env.ReadBytes "server" = .ok (serverCert, serverKey))
    (htok : f.tokenAuthFile ≠ "" → env.ReadFile f.tokenAuthFile = .ok tokenData) :
    ∃ docs, marshalAll env (manifestSet g f caCert serverCert serverKey tokenData) = .ok docs ∧
      marshalled (installer g env f).events
        = manifestSet g f caCert serverCert serverKey tokenData ∧
      printed (installer g env f).events = [String.intercalate "---\n" docs] := by
  obtain ⟨h1, h2, h3, h4, h5, -, -, h6⟩ := installer_answers g env f h
  have h7 : f.tokenAuthFile ≠ "" → env.LoadTokenFile f.tokenAuthFile = none := fun x => (h6 x).1
  clear h6
  unfold installer at h ⊢
  unfold manifestSet
  simp only [Proc.stop_bind, Proc.call_bind, Proc.pure_bind_eq, marshal_bind,
    core.NamespaceDefault, h1, h2, h3, h4, h5, hca, hsrv, Bool.not_true, Bool.false_eq_true,
    ↓reduceIte, ne_eq] at h ⊢
  clear h1 h2 h3 h4 h5 hca hsrv
  by_cases htk : f.tokenAuthFile = "" <;>
    by_cases hns : ¬f.ns = "kube-system" ∧ ¬f.ns = "default" <;>
    by_cases hrb : f.enableRBAC = true <;>
    simp only [htk, hns, hrb, h7, htok, ne_eq, not_true_eq_false, ↓reduceIte, decide_False,
      decide_True, not_false_eq_true, Bool.false_eq_true, List.nil_append, List.append_nil,
      List.cons_append, List.append_assoc, IsEmpty.forall_iff, forall_const] at h ⊢ <;>
    clear htk hns hrb htok h7 <;>
    (repeat' split at h) <;>
    simp_all [printed, marshalled, marshalAll, String.intercalate, String.intercalate.go]

theorem marshalAll_ok_mem (env : InstallerEnv) (objs : List (Object × GroupVersion))
    (docs : List String) (h : marshalAll env objs = .ok docs) :
    ∀ o ∈ objs, ∃ d, env.MarshalToYAML o.1 o.2 = .ok d := by
  induction objs generalizing docs with
  | nil => simp
  | cons o rest ih =>
    obtain ⟨obj, gv⟩ := o
    unfold marshalAll at h
    split at h
    · simp at h
    · rename_i data hd
      split at h
      · simp at h
      · rename_i ds hds
        intro o ho
        rcases List.mem_cons.1 ho with rfl | ho
        · exact ⟨data, hd⟩
        · exact ih ds hds o ho

/-- The installer succeeds whenever the address is accepted, the store opens
and holds both pairs, the token file (if any) loads and reads, and every object
of the step list serialises. -/
theorem installer_succeeds (g : Globals) (env : InstallerEnv) (f : InstallerFlags)
    (caCert caKey serverCert serverKey tokenData : Bytes) (docs : List String)
    (haddr : addressAccepted f.addr)
    (hstore : env.NewCertStore (env.Join g.rootDir "pki") = none)
    (hpca : env.PairExists "ca" = true) (hpsrv : env.PairExists "server" = true)
    (hca : env.ReadBytes "ca" = .ok (caCert, caKey))
    (hsrv : env.ReadBytes "server" = .ok (serverCert, serverKey))
    (hload : f.tokenAuthFile ≠ "" → env.LoadTokenFile f.tokenAuthFile = none)
    (htok : f.tokenAuthFile ≠ "" → env.ReadFile f.tokenAuthFile = .ok tokenData)
    (hdocs : marshalAll env (manifestSet g f caCert serverCert serverKey tokenData) = .ok docs) :
    (installer g env f).result = .ok () := by
  obtain ⟨h1, h2⟩ := haddr
  have hall := marshalAll_ok_mem _ _ _ hdocs
  clear hdocs
  unfold installer
  unfold manifestSet at hall
  simp only [Proc.stop_bind, Proc.call_bind, Proc.pure_bind_eq, marshal_bind,
    core.NamespaceDefault, h1, h2, hstore, hpca, hpsrv, hca, hsrv, Bool.not_true,
    Bool.false_eq_true, ↓reduceIte, ne_eq] at hall ⊢
  clear h1 h2 hstore hpca hpsrv hca hsrv
  by_cases htk : f.tokenAuthFile = "" <;>
    by_cases hns : ¬f.ns = "kube-system" ∧ ¬f.ns = "default" <;>
    by_cases hrb : f.enableRBAC = true <;>
    simp only [htk, hns, hrb, hload, htok, ne_eq, not_true_eq_false, ↓reduceIte, decide_False,
      decide_True, not_false_eq_true, Bool.false_eq_true, List.nil_append, List.append_nil,
      List.cons_append, List.append_assoc, IsEmpty.forall_iff, forall_const,
      List.mem_cons, List.mem_singleton, forall_eq_or_imp, forall_eq, List.not_mem_nil,
      false_or, or_false] at hall ⊢ <;>
    clear htk hns hrb htok hload <;>
    (repeat' split) <;>
    simp_all

/-- The installer never prints anything when it stops early. -/
theorem installer_stop_silent (g : Globals) (env : InstallerEnv) (f : InstallerFlags) (e : Exit)
    (h : (installer g env f).result = .error e) : printed (installer g env f).events = [] := by
  unfold installer at h ⊢
  simp only [Proc.stop_bind, Proc.call_bind, Proc.pure_bind_eq, marshal_bind] at h ⊢
  repeat' split
  all_goals simp_all [printed]

/-- C1: whenever the installer succeeds, the objects it serialises are exactly
the object set of the step list, in that order, and the single line it prints
is their serialisations joined by "---\n", with no separator after the last. -/
theorem installer_manifest_stream (g : Globals) (env : InstallerEnv) (f : InstallerFlags)
    (h : (installer g env f).result = .ok ()) :
    ∃ caCert caKey serverCert serverKey tokenData docs,
      env.ReadBytes "ca" = .ok (caCert, caKey) ∧
      env.ReadBytes "server" = .ok (serverCert, serverKey) ∧
      (f.tokenAuthFile ≠ "" → env.ReadFile f.tokenAuthFile = .ok tokenData) ∧
      marshalled (installer g env f).events
        = manifestSet g f caCert serverCert serverKey tokenData ∧
      marshalAll env (manifestSet g f caCert serverCert serverKey tokenData) = .ok docs ∧
      printed (installer g env f).events = [String.intercalate "---\n" docs] := by
  obtain ⟨-, -, -, -, -, ⟨⟨caCert, caKey⟩, hca⟩, ⟨⟨serverCert, serverKey⟩, hsrv⟩, htok⟩ :=
    installer_answers g env f h
  by_cases htk : f.tokenAuthFile = ""
  · have ht : f.tokenAuthFile ≠ "" → env.ReadFile f.tokenAuthFile = .ok [] :=
      fun hne => absurd htk hne
    obtain ⟨docs, h1, h2, h3⟩ :=
      installer_objects g env f caCert caKey serverCert serverKey [] h hca hsrv ht
    exact ⟨caCert, caKey, serverCert, serverKey, [], docs, hca, hsrv, ht, h2, h1, h3⟩
  · obtain ⟨-, tokenData, hrd⟩ := htok htk
    obtain ⟨docs, h1, h2, h3⟩ :=
      installer_objects g env f caCert caKey serverCert serverKey tokenData h hca hsrv
        (fun _ => hrd)
    exact ⟨caCert, caKey, serverCert, serverKey, tokenData, docs, hca, hsrv, fun _ => hrd, h2, h1,
      h3⟩

/-! ## `strconv.Atoi` reads exactly the decimal integers that fit in an `int` -/

theorem foldl_digits_ge (cs : List Char) (n : Nat) :
    n ≤ cs.foldl (fun n c => n * 10 + (c.toNat - 48)) n := by
  induction cs generalizing n with
  | nil => simp
  | cons c cs ih =>
    simp only [List.foldl_cons]
    have := ih (n * 10 + (c.toNat - 48))
    omega

theorem parseUintLoop_ok (cs : List Char) (n : Nat) (hd : cs.all isDigit = true)
    (hv : cs.foldl (fun n c => n * 10 + (c.toNat - 48)) n ≤ maxUint64) :
    parseUintLoop cs n = (cs.foldl (fun n c => n * 10 + (c.toNat - 48)) n, none) := by
  induction cs generalizing n with
  | nil => simp [parseUintLoop]
  | cons c cs ih =>
    simp only [List.all_cons, Bool.and_eq_true] at hd
    simp only [List.foldl_cons] at hv ⊢
    have hge := foldl_digits_ge cs (n * 10 + (c.toNat - 48))
    have hc : 48 ≤ c.toNat ∧ c.toNat ≤ 57 := by simpa [isDigit] using hd.1
    have hm : maxUint64 = 18446744073709551615 := by decide
    unfold parseUintLoop
    rw [if_pos hc, if_neg (by omega)]
    simp only
    rw [if_neg (by omega)]
    exact ih _ hd.2 hv

theorem parseUintLoop_none (cs : List Char) (n : Nat) (hn : n ≤ maxUint64)
    (h : (parseUintLoop cs n).2 = none) :
    cs.all isDigit = true ∧ cs.foldl (fun n c => n * 10 + (c.toNat - 48)) n ≤ maxUint64 := by
  induction cs generalizing n with
  | nil => exact ⟨rfl, hn⟩
  | cons c cs ih =>
    unfold parseUintLoop at h
    split at h
    · rename_i hc
      split at h
      · simp at h
      · simp only at h
        split at h
        · simp at h
        · rename_i h1 h2
          have hd : isDigit c = true := by simpa [isDigit] using hc
          obtain ⟨h3, h4⟩ := ih _ (Nat.le_of_not_lt h2) h
          exact ⟨by simp [hd, h3], by simpa using h4⟩
    · simp at h

theorem parseUintLoop_range (cs : List Char) (n : Nat)
    (h : (parseUintLoop cs n).2 = some .errRange) : (parseUintLoop cs n).1 = maxUint64 := by
  induction cs generalizing n with
  | nil => simp [parseUintLoop] at h
  | cons c cs ih =>
    unfold parseUintLoop at h ⊢
    split
    · rename_i hc
      rw [if_pos hc] at h
      split
      · rfl
      · rename_i h1
        rw [if_neg h1] at h
        simp only at h ⊢
        split
        · rfl
        · rename_i h2
          rw [if_neg h2] at h
          exact ih _ h
    · rename_i hc
      rw [if_neg hc] at h
      simp at h

theorem ParseUint_ok (cs : List Char) (hd : isDigits cs = true)
    (hv : decimalValue cs ≤ maxUint64) : ParseUint cs = (decimalValue cs, none) := by
  cases cs with
  | nil => simp [isDigits] at hd
  | cons c cs =>
    have hall : (c :: cs).all isDigit = true := by
      simpa [isDigits] using hd
    simpa [ParseUint, decimalValue] using parseUintLoop_ok (c :: cs) 0 hall hv

theorem ParseUint_none (cs : List Char) (h : (ParseUint cs).2 = none) :
    isDigits cs = true ∧ decimalValue cs ≤ maxUint64 ∧ ParseUint cs = (decimalValue cs, none) := by
  cases cs with
  | nil => simp [ParseUint] at h
  | cons c cs =>
    have h0 : (0 : Nat) ≤ maxUint64 := Nat.zero_le _
    obtain ⟨h1, h2⟩ := parseUintLoop_none (c :: cs) 0 h0 (by simpa [ParseUint] using h)
    have hd : isDigits (c :: cs) = true := by
      simpa [isDigits] using h1
    exact ⟨hd, h2, ParseUint_ok _ hd h2⟩

theorem ParseUint_range (cs : List Char) (h : (ParseUint cs).2 = some .errRange) :
    (ParseUint cs).1 = maxUint64 := by
  cases cs with
  | nil => simp [ParseUint] at h
  | cons c cs => exact parseUintLoop_range (c :: cs) 0 h

theorem ParseInt_of_digits (neg : Bool) (c : Char) (cs ds : List Char)
    (hneg : neg = decide (c = '-'))
    (hds : ds = if c = '+' ∨ c = '-' then cs else c :: cs)
    (hd : isDigits ds = true)
    (hlo : neg = true → decimalValue ds ≤ 2 ^ 63)
    (hhi : neg = false → decimalValue ds < 2 ^ 63) :
    ParseInt (c :: cs) =
      (if neg then -(decimalValue ds : Int) else (decimalValue ds : Int), none) := by
  have hm : maxUint64 = 18446744073709551615 := by decide
  have hle : decimalValue ds ≤ maxUint64 := by
    cases neg
    · have := hhi rfl
      omega
    · have := hlo rfl
      omega
  have hu := ParseUint_ok ds hd hle
  unfold ParseInt
  simp only [← hds, ← hneg, hu, intSize]
  cases neg
  · have := hhi rfl
    simp
    omega
  · have := hlo rfl
    simp
    omega

theorem Atoi_of_signedDecimal (s : String) (v : Int) (h : signedDecimal s = some v)
    (hlo : -(2 : Int) ^ 63 ≤ v) (hhi : v < 2 ^ 63) : Atoi s = (v, none) := by
  unfold signedDecimal at h
  unfold Atoi
  cases hs : s.data with
  | nil => simp [hs] at h
  | cons c cs =>
    simp only [hs] at h
    by_cases hm : c = '-'
    · simp only [hm, ↓reduceIte] at h
      split at h
      · rename_i hd
        simp only [Option.some.injEq] at h
        subst hm
        have := ParseInt_of_digits true '-' cs cs (by decide) (by simp) hd
          (fun _ => by omega) (fun hf => by simp at hf)
        simpa [h] using this
      · simp at h
    · simp only [hm, ↓reduceIte] at h
      by_cases hp : c = '+'
      · simp only [hp, ↓reduceIte] at h
        split at h
        · rename_i hd
          simp only [Option.some.injEq] at h
          subst hp
          have := ParseInt_of_digits false '+' cs cs (by decide) (by simp) hd
            (fun hf => by simp at hf) (fun _ => by omega)
          simpa [h] using this
        · simp at h
      · simp only [hp, ↓reduceIte] at h
        split at h
        · rename_i hd
          simp only [Option.some.injEq] at h
          have := ParseInt_of_digits false c cs (c :: cs) (by simp [hm]) (by simp [hm, hp]) hd
            (fun hf => by simp at hf) (fun _ => by omega)
          simpa [h] using this
        · simp at h

theorem signedDecimal_of_Atoi (s : String) (h : (Atoi s).2 = none) :
    signedDecimal s = some (Atoi s).1 ∧ -(2 : Int) ^ 63 ≤ (Atoi s).1 ∧ (Atoi s).1 < 2 ^ 63 := by
  unfold Atoi at h ⊢
  unfold signedDecimal
  cases hs : s.data with
  | nil => simp [hs, ParseInt] at h
  | cons c cs =>
    simp only [hs] at h ⊢
    unfold ParseInt at h ⊢
    simp only at h ⊢
    obtain ⟨ds, hds⟩ : ∃ ds, ds = (if c = '+' ∨ c = '-' then cs else c :: cs) := ⟨_, rfl⟩
    rw [← hds] at h ⊢
    rcases hr : ParseUint ds with ⟨un, _ | e⟩
    · obtain ⟨hd, -, hu⟩ := ParseUint_none _ (by rw [hr])
      rw [hr] at hu
      simp only [Prod.mk.injEq, and_true] at hu
      simp only [hr, intSize] at h ⊢
      by_cases hm : c = '-'
      · subst hm
        have hcs : ds = cs := by simpa using hds
        subst hcs
        simp [hd, hu] at h ⊢
        split at h
        · simp at h
        · rename_i hc
          simp [hc]
          omega
      · by_cases hp : c = '+'
        · subst hp
          have hcs : ds = cs := by simpa using hds
          subst hcs
          simp [hd, hu, hm] at h ⊢
          split at h
          · simp at h
          · rename_i hc
            simp [hc]
            omega
        · have hcs : ds = c :: cs := by simpa [hm, hp] using hds
          subst hcs
          simp [hd, hu, hm, hp] at h ⊢
          split at h
          · simp at h
          · rename_i hc
            simp [hc]
            omega
    · cases e with
      | errSyntax => simp [hr] at h
      | errRange =>
        have hmax := ParseUint_range _ (by rw [hr])
        rw [hr] at hmax
        simp only at hmax
        subst hmax
        simp only [hr, intSize] at h
        by_cases hm : c = '-' <;> simp [hm, maxUint64] at h

theorem addressAccepted_iff (addr : String) : addressAccepted addr ↔ hostPortInRange addr := by
  unfold addressAccepted hostPortInRange inIntRange
  constructor
  · rintro ⟨h1, h2⟩
    obtain ⟨h3, h4⟩ := signedDecimal_of_Atoi _ h2
    exact ⟨h1, _, h3, h4⟩
  · rintro ⟨h1, v, h2, h3, h4⟩
    exact ⟨h1, by rw [Atoi_of_signedDecimal _ v h2 h3 h4]⟩

theorem int32_of_range (v : Int) (hlo : -(2 : Int) ^ 31 ≤ v) (hhi : v < 2 ^ 31) : int32 v = v := by
  unfold int32
  omega

theorem installer_of_accepted (g : Globals) (env : InstallerEnv) (f : InstallerFlags)
    (h : addressAccepted f.addr) :
    (installer g env f).events.head? = some (.NewCertStore (env.Join g.rootDir "pki") []) := by
  obtain ⟨h1, h2⟩ := h
  unfold installer
  simp only [Proc.stop_bind, Proc.call_bind, Proc.pure_bind_eq, h1, h2, Proc.after_events,
    List.head?_cons]

theorem installer_of_rejected (g : Globals) (env : InstallerEnv) (f : InstallerFlags)
    (h : ¬addressAccepted f.addr) :
    (installer g env f).events = [] ∧
      ((∃ e, (installer g env f).result = .error (.addressInvalid e)) ∨
        ∃ e, (installer g env f).result = .error (.portInvalid e)) := by
  unfold addressAccepted at h
  unfold installer
  cases h1 : (SplitHostPort f.addr).2.2 with
  | some e => simp [h1]
  | none =>
    cases h2 : (Atoi (SplitHostPort f.addr).2.1).2 with
    | some e => simp [h1, h2]
    | none => exact absurd ⟨h1, h2⟩ h

/-- C5, the claim as written fails: this address is host:port with an all-digit
port, yet validation rejects it, because the port does not fit Go's `int`. -/
theorem installer_rejects_long_numeric_port :
    SplitHostPort "10.96.10.96:99999999999999999999"
        = ("10.96.10.96", "99999999999999999999", none) ∧
      isDigits "99999999999999999999".data = true ∧
      ¬addressAccepted "10.96.10.96:99999999999999999999" ∧
      (installer sampleGlobals sampleEnv { addr := "10.96.10.96:99999999999999999999" }).result
        = .error (.portInvalid .errRange) := by
  refine ⟨by decide, by decide, by decide, rfl⟩

/-- C5, amended: validation succeeds, and the installer goes on to open the
certificate store, exactly when the address splits into host and port and the
port segment is a decimal integer (digits, optionally signed) that fits a
64-bit `int`; for every other address the installer stops with an address or
port error having called no collaborator: no store opened, no file read, no
object built. -/
theorem installer_address_validation (g : Globals) (env : InstallerEnv) (f : InstallerFlags) :
    (hostPortInRange f.addr ∧ addressAccepted f.addr ∧
        (installer g env f).events.head? = some (.NewCertStore (env.Join g.rootDir "pki") [])) ∨
      (¬hostPortInRange f.addr ∧ ¬addressAccepted f.addr ∧
        (installer g env f).events = [] ∧
        ((∃ e, (installer g env f).result = .error (.addressInvalid e)) ∨
          ∃ e, (installer g env f).result = .error (.portInvalid e))) := by
  by_cases h : addressAccepted f.addr
  · exact Or.inl ⟨(addressAccepted_iff _).1 h, h, installer_of_accepted g env f h⟩
  · exact Or.inr ⟨fun hr => h ((addressAccepted_iff _).2 hr), h, installer_of_rejected g env f h⟩

/-- C4, the claim as written fails: this address passes validation and its port
segment denotes 4294967297, but the Service's port is 1. -/
theorem newService_port_wraps :
    addressAccepted "10.96.10.96:4294967297" ∧
      signedDecimal (SplitHostPort "10.96.10.96:4294967297").2.1 = some 4294967297 ∧
      (newService "kube-system" "10.96.10.96:4294967297").Spec.Ports.map (·.Port) = [1] := by
  refine ⟨by decide, by decide, by decide⟩

/-- C4, amended: for every address that passes validation, the Service has type
ClusterIP, its clusterIP is the host part of the address, and it has a single
port, whose number is the integer value of the port part whenever that value
fits a signed 32-bit integer. -/
theorem newService_of_accepted (ns addr : String) (h : addressAccepted addr) :
    ∃ v p, signedDecimal (SplitHostPort addr).2.1 = some v ∧
      (newService ns addr).Spec.Type_ = "ClusterIP" ∧
      (newService ns addr).Spec.ClusterIP = (SplitHostPort addr).1 ∧
      (newService ns addr).Spec.Ports = [p] ∧
      (-(2 : Int) ^ 31 ≤ v → v < 2 ^ 31 → p.Port = v) := by
  obtain ⟨hv, -, -⟩ := signedDecimal_of_Atoi _ h.2
  refine ⟨_, _, hv, rfl, rfl, rfl, ?_⟩
  intro hlo hhi
  exact int32_of_range _ hlo hhi

/-- Witness of `newService_of_accepted` at the default address. -/
theorem newService_of_accepted_witness :
    addressAccepted "10.96.10.96:9844" ∧
      ∃ v p, signedDecimal (SplitHostPort "10.96.10.96:9844").2.1 = some v ∧
        (newService "kube-system" "10.96.10.96:9844").Spec.Type_ = "ClusterIP" ∧
        (newService "kube-system" "10.96.10.96:9844").Spec.ClusterIP
          = (SplitHostPort "10.96.10.96:9844").1 ∧
        (newService "kube-system" "10.96.10.96:9844").Spec.Ports = [p] ∧
        (-(2 : Int) ^ 31 ≤ v → v < 2 ^ 31 → p.Port = v) :=
  ⟨by decide, newService_of_accepted "kube-system" "10.96.10.96:9844" (by decide)⟩

/-- C7: a run of the installer either succeeds, and then the one line it prints
is the complete manifest stream, or stops early, and then it has printed
nothing, whichever step failed. -/
theorem installer_all_or_nothing (g : Globals) (env : InstallerEnv) (f : InstallerFlags) :
    ((installer g env f).result = .ok () ∧
        ∃ caCert serverCert serverKey tokenData docs,
          marshalAll env (manifestSet g f caCert serverCert serverKey tokenData) = .ok docs ∧
          printed (installer g env f).events = [String.intercalate "---\n" docs]) ∨
      ((∃ e, (installer g env f).result = .error e) ∧
        printed (installer g env f).events = []) := by
  cases h : (installer g env f).result with
  | error e => exact Or.inr ⟨⟨e, rfl⟩, installer_stop_silent g env f e h⟩
  | ok u =>
    left
    refine ⟨rfl, ?_⟩
    obtain ⟨-, -, -, -, -, ⟨⟨caCert, caKey⟩, hca⟩, ⟨⟨serverCert, serverKey⟩, hsrv⟩, htok⟩ :=
      installer_answers g env f h
    by_cases htk : f.tokenAuthFile = ""
    · obtain ⟨docs, h1, -, h3⟩ :=
        installer_objects g env f caCert caKey serverCert serverKey [] h hca hsrv
          (fun hne => absurd htk hne)
      exact ⟨caCert, serverCert, serverKey, [], docs, h1, h3⟩
    · obtain ⟨-, tokenData, hrd⟩ := htok htk
      obtain ⟨docs, h1, -, h3⟩ :=
        installer_objects g env f caCert caKey serverCert serverKey tokenData h hca hsrv
          (fun _ => hrd)
      exact ⟨caCert, serverCert, serverKey, tokenData, docs, h1, h3⟩

/-- An example of an early stop after objects were serialised: the marshaller
fails on the Service, the last object, and nothing is printed. -/
theorem installer_late_failure_example :
    (installer sampleGlobals
        { sampleEnv with
          MarshalToYAML := fun obj gv =>
            match obj with
            | .ofService _ => .error "marshal failed"
            | _ => sampleEnv.MarshalToYAML obj gv }
        {}).result = .error (.fatal "marshal failed") ∧
      (marshalled (installer sampleGlobals
        { sampleEnv with
          MarshalToYAML := fun obj gv =>
            match obj with
            | .ofService _ => .error "marshal failed"
            | _ => sampleEnv.MarshalToYAML obj gv }
        {}).events).length = 3 ∧
      printed (installer sampleGlobals
        { sampleEnv with
          MarshalToYAML := fun obj gv =>
            match obj with
            | .ofService _ => .error "marshal failed"
            | _ => sampleEnv.MarshalToYAML obj gv }
        {}).events = [] := by
  refine ⟨rfl, rfl, rfl⟩

/-- On success the objects serialised are the object set of the step list, for
the bytes the store and the token file answered. -/
theorem installer_marshalled (g : Globals) (env : InstallerEnv) (f : InstallerFlags)
    (h : (installer g env f).result = .ok ()) :
    ∃ caCert caKey serverCert serverKey tokenData,
      env.ReadBytes "ca" = .ok (caCert, caKey) ∧
      env.ReadBytes "server" = .ok (serverCert, serverKey) ∧
      (f.tokenAuthFile ≠ "" → env.ReadFile f.tokenAuthFile = .ok tokenData) ∧
      marshalled (installer g env f).events
        = manifestSet g f caCert serverCert serverKey tokenData := by
  obtain ⟨-, -, -, -, -, ⟨⟨caCert, caKey⟩, hca⟩, ⟨⟨serverCert, serverKey⟩, hsrv⟩, htok⟩ :=
    installer_answers g env f h
  by_cases htk : f.tokenAuthFile = ""
  · have ht : f.tokenAuthFile ≠ "" → env.ReadFile f.tokenAuthFile = .ok [] :=
      fun hne => absurd htk hne
    obtain ⟨docs, -, h2, -⟩ :=
      installer_objects g env f caCert caKey serverCert serverKey [] h hca hsrv ht
    exact ⟨caCert, caKey, serverCert, serverKey, [], hca, hsrv, ht, h2⟩
  · obtain ⟨-, tokenData, hrd⟩ := htok htk
    obtain ⟨docs, -, h2, -⟩ :=
      installer_objects g env f caCert caKey serverCert serverKey tokenData h hca hsrv
        (fun _ => hrd)
    exact ⟨caCert, caKey, serverCert, serverKey, tokenData, hca, hsrv, fun _ => hrd, h2⟩

/-- C2: in every successful run the Deployment's volumes are secret volumes
named after their secret, their names are, one for one, the names of the Secret
objects emitted in the run ("guard-pki", then "guard-token-auth" exactly when a
token-auth file is given), every volume mount of the container names a declared
volume, and the token-auth Secret, volume, mount and argument are present
together when a token-auth file is given and absent together otherwise. -/
theorem deployment_volumes_match_secrets (g : Globals) (env : InstallerEnv)
    (f : InstallerFlags) (h : (installer g env f).result = .ok ()) :
    ∃ d c, deploymentsOf (marshalled (installer g env f).events) = [d] ∧
      d.Spec.Template.Spec.Containers = [c] ∧
      (∀ v ∈ d.Spec.Template.Spec.Volumes, ∃ sv, v.Secret = some sv ∧ sv.SecretName = v.Name) ∧
      d.Spec.Template.Spec.Volumes.map (·.Name)
        = (secretsOf (marshalled (installer g env f).events)).map (·.ObjectMeta.Name) ∧
      (secretsOf (marshalled (installer g env f).events)).map (·.ObjectMeta.Name)
        = "guard-pki" :: (if f.tokenAuthFile ≠ "" then ["guard-token-auth"] else []) ∧
      (∀ s ∈ secretsOf (marshalled (installer g env f).events),
        s.ObjectMeta.Namespace = d.ObjectMeta.Namespace) ∧
      (∀ m ∈ c.VolumeMounts, m.Name ∈ d.Spec.Template.Spec.Volumes.map (·.Name)) ∧
      (f.tokenAuthFile ≠ "" ↔
        "guard-token-auth"
          ∈ (secretsOf (marshalled (installer g env f).events)).map (·.ObjectMeta.Name)) ∧
      (f.tokenAuthFile ≠ "" ↔
        "guard-token-auth" ∈ d.Spec.Template.Spec.Volumes.map (·.Name)) ∧
      (f.tokenAuthFile ≠ "" ↔ "guard-token-auth" ∈ c.VolumeMounts.map (·.Name)) ∧
      (f.tokenAuthFile ≠ "" ↔ "--token-auth-file=/etc/guard/auth/token.csv" ∈ c.Args) := by
  obtain ⟨caCert, caKey, serverCert, serverKey, tokenData, -, -, -, hm⟩ :=
    installer_marshalled g env f h
  rw [hm]
  unfold manifestSet
  by_cases hns : f.ns ≠ "kube-system" ∧ f.ns ≠ "default" <;>
    by_cases hrb : f.enableRBAC = true <;>
    by_cases htk : f.tokenAuthFile = "" <;>
    simp [hns, hrb, htk, deploymentsOf, secretsOf, newDeployment, newSecret,
      newSecretForTokenAuth, List.modifyHead]

/-- Witness of `deployment_volumes_match_secrets`: a run with a token-auth file. -/
theorem deployment_volumes_match_secrets_witness :
    (installer sampleGlobals sampleEnv { tokenAuthFile := "token.csv" }).result = .ok () ∧
      (secretsOf (marshalled
          (installer sampleGlobals sampleEnv { tokenAuthFile := "token.csv" }).events)).map
        (·.ObjectMeta.Name) = ["guard-pki", "guard-token-auth"] :=
  ⟨rfl, by
    have h := deployment_volumes_match_secrets sampleGlobals sampleEnv
      { tokenAuthFile := "token.csv" } rfl
    obtain ⟨d, c, -, -, -, -, h5, -⟩ := h
    rw [h5]
    decide⟩

/-- C3: in every successful run the first Secret emitted is the TLS secret, whose
data has exactly the keys "ca.crt", "tls.crt", "tls.key", holding the certificate
read under "ca" and the certificate and key read under "server"; the only other
Secret is the token-auth secret, emitted when a token-auth file is given, whose
data has exactly the key "token.csv", holding the bytes read from that file. -/
theorem secrets_carry_store_bytes (g : Globals) (env : InstallerEnv) (f : InstallerFlags)
    (caCert caKey serverCert serverKey : Bytes)
    (h : (installer g env f).result = .ok ())
    (hca : env.ReadBytes "ca" = .ok (caCert, caKey))
    (hsrv : env.ReadBytes "server" = .ok (serverCert, serverKey)) :
    ∃ tls rest, secretsOf (marshalled (installer g env f).events) = tls :: rest ∧
      tls.ObjectMeta.Name = "guard-pki" ∧
      tls.Data = [("ca.crt", caCert), ("tls.crt", serverCert), ("tls.key", serverKey)] ∧
      (f.tokenAuthFile = "" → rest = []) ∧
      ∀ tokenData, f.tokenAuthFile ≠ "" → env.ReadFile f.tokenAuthFile = .ok tokenData →
        ∃ t, rest = [t] ∧ t.ObjectMeta.Name = "guard-token-auth" ∧
          t.Data = [("token.csv", tokenData)] := by
  obtain ⟨ca, ck, sc, sk, tokenData, hca2, hsrv2, htok, hm⟩ := installer_marshalled g env f h
  rw [hca] at hca2
  rw [hsrv] at hsrv2
  simp only [Except.ok.injEq, Prod.mk.injEq] at hca2 hsrv2
  obtain ⟨rfl, rfl⟩ := hca2
  obtain ⟨rfl, rfl⟩ := hsrv2
  rw [hm]
  unfold manifestSet
  by_cases hns : f.ns ≠ "kube-system" ∧ f.ns ≠ "default" <;>
    by_cases hrb : f.enableRBAC = true <;>
    by_cases htk : f.tokenAuthFile = ""
  all_goals
    simp only [hns, hrb, htk, secretsOf, newSecret, newSecretForTokenAuth, ↓reduceIte,
      not_true_eq_false, not_false_eq_true, ne_eq, List.filterMap_append, List.filterMap_cons,
      List.filterMap_nil, List.nil_append, List.append_nil, List.cons_append,
      List.cons.injEq, exists_and_left, exists_eq_left', IsEmpty.forall_iff, forall_const,
      implies_true, and_true, true_and, Bool.false_eq_true]
  all_goals first
    | exact ⟨_, _, ⟨rfl, rfl⟩, rfl, rfl, rfl⟩
    | (refine ⟨_, _, ⟨rfl, rfl⟩, rfl, rfl, ?_⟩
       intro td htd
       rw [htok htk] at htd
       simp only [Except.ok.injEq] at htd
       subst htd
       exact ⟨_, rfl, rfl, rfl⟩)

/-- Witness of `secrets_carry_store_bytes`: a run with a token-auth file. -/
theorem secrets_carry_store_bytes_witness :
    (installer sampleGlobals sampleEnv { tokenAuthFile := "token.csv" }).result = .ok () ∧
      ∃ tls rest,
        secretsOf (marshalled
            (installer sampleGlobals sampleEnv { tokenAuthFile := "token.csv" }).events)
          = tls :: rest ∧
        tls.ObjectMeta.Name = "guard-pki" ∧
        tls.Data = [("ca.crt", [1]), ("tls.crt", [3]), ("tls.key", [4])] ∧
        (("token.csv" : String) = "" → rest = []) ∧
        ∀ tokenData, ("token.csv" : String) ≠ "" →
          sampleEnv.ReadFile "token.csv" = .ok tokenData →
          ∃ t, rest = [t] ∧ t.ObjectMeta.Name = "guard-token-auth" ∧
            t.Data = [("token.csv", tokenData)] :=
  ⟨rfl, secrets_carry_store_bytes sampleGlobals sampleEnv { tokenAuthFile := "token.csv" }
    [1] [2] [3] [4] rfl rfl rfl⟩

/-- Witness of `installer_manifest_stream`: a run with every optional object. -/
theorem installer_manifest_stream_witness :
    (installer sampleGlobals sampleEnv
        { ns := "guard", enableRBAC := true, tokenAuthFile := "token.csv" }).result = .ok () ∧
      ∃ caCert caKey serverCert serverKey tokenData docs,
        sampleEnv.ReadBytes "ca" = .ok (caCert, caKey) ∧
        sampleEnv.ReadBytes "server" = .ok (serverCert, serverKey) ∧
        (("token.csv" : String) ≠ "" → sampleEnv.ReadFile "token.csv" = .ok tokenData) ∧
        marshalled (installer sampleGlobals sampleEnv
            { ns := "guard", enableRBAC := true, tokenAuthFile := "token.csv" }).events
          = manifestSet sampleGlobals
              { ns := "guard", enableRBAC := true, tokenAuthFile := "token.csv" }
              caCert serverCert serverKey tokenData ∧
        marshalAll sampleEnv (manifestSet sampleGlobals
            { ns := "guard", enableRBAC := true, tokenAuthFile := "token.csv" }
            caCert serverCert serverKey tokenData) = .ok docs ∧
        printed (installer sampleGlobals sampleEnv
            { ns := "guard", enableRBAC := true, tokenAuthFile := "token.csv" }).events
          = [String.intercalate "---\n" docs] :=
  ⟨rfl, installer_manifest_stream sampleGlobals sampleEnv
    { ns := "guard", enableRBAC := true, tokenAuthFile := "token.csv" } rfl⟩

/-- C6, the claim as written fails: the Deployment that `newDeployment` builds
has no selector, so its selector labels are not the Service's selector labels. -/
theorem deployment_selector_absent :
    (newDeployment sampleGlobals "kube-system" false false).Spec.Selector.map (·.MatchLabels)
      ≠ some (newService "kube-system" "10.96.10.96:9844").Spec.Selector := by
  decide

/-- C6, amended: for every namespace, address and feature-flag combination the
Deployment is built without a selector, and its pod-template labels, like its
own labels, are equal to the Service's selector labels, the map app=guard. -/
theorem deployment_labels_match_service (g : Globals) (ns addr : String)
    (enableRBAC enableTokenAuth : Bool) :
    (newDeployment g ns enableRBAC enableTokenAuth).Spec.Selector = none ∧
      (newDeployment g ns enableRBAC enableTokenAuth).Spec.Template.ObjectMeta.Labels
        = (newService ns addr).Spec.Selector ∧
      (newDeployment g ns enableRBAC enableTokenAuth).ObjectMeta.Labels
        = (newService ns addr).Spec.Selector ∧
      (newService ns addr).Spec.Selector = [("app", "guard")] := by
  cases enableRBAC <;> cases enableTokenAuth <;> exact ⟨rfl, rfl, rfl, rfl⟩

/-- C10: in every successful run with RBAC enabled the Deployment's pod spec
names the service account "guard", the name of the ServiceAccount emitted in the
Deployment's namespace; the ClusterRoleBinding's only subject is that
ServiceAccount and its roleRef names the emitted ClusterRole, whose only rule
grants only "list" on "nodes".  With RBAC disabled none of the three is emitted,
the Deployment's service-account name is empty, and setting it to "guard" gives
the Deployment of the RBAC-enabled run. -/
theorem rbac_objects_consistent (g : Globals) (env : InstallerEnv) (f : InstallerFlags)
    (h : (installer g env f).result = .ok ()) :
    ∃ d, deploymentsOf (marshalled (installer g env f).events) = [d] ∧
      d = newDeployment g f.ns f.enableRBAC (decide (f.tokenAuthFile ≠ "")) ∧
      (f.enableRBAC = true →
        ∃ sa cr crb,
          serviceAccountsOf (marshalled (installer g env f).events) = [sa] ∧
          clusterRolesOf (marshalled (installer g env f).events) = [cr] ∧
          clusterRoleBindingsOf (marshalled (installer g env f).events) = [crb] ∧
          d.Spec.Template.Spec.ServiceAccountName = "guard" ∧
          sa.ObjectMeta.Name = d.Spec.Template.Spec.ServiceAccountName ∧
          sa.ObjectMeta.Namespace = d.ObjectMeta.Namespace ∧
          d.ObjectMeta.Namespace = f.ns ∧
          crb.Subjects = [⟨"ServiceAccount", sa.ObjectMeta.Name, sa.ObjectMeta.Namespace⟩] ∧
          crb.RoleRef.Kind = "ClusterRole" ∧
          crb.RoleRef.Name = cr.ObjectMeta.Name ∧
          cr.Rules.map (·.Verbs) = [["list"]] ∧
          cr.Rules.map (·.Resources) = [["nodes"]]) ∧
      (f.enableRBAC = false →
        serviceAccountsOf (marshalled (installer g env f).events) = [] ∧
        clusterRolesOf (marshalled (installer g env f).events) = [] ∧
        clusterRoleBindingsOf (marshalled (installer g env f).events) = [] ∧
        d.Spec.Template.Spec.ServiceAccountName = "" ∧
        newDeployment g f.ns true (decide (f.tokenAuthFile ≠ ""))
          = { d with Spec.Template.Spec.ServiceAccountName := "guard" }) := by
  obtain ⟨caCert, caKey, serverCert, serverKey, tokenData, -, -, -, hm⟩ :=
    installer_marshalled g env f h
  rw [hm]
  unfold manifestSet
  by_cases hns : f.ns ≠ "kube-system" ∧ f.ns ≠ "default" <;>
    by_cases hrb : f.enableRBAC = true <;>
    by_cases htk : f.tokenAuthFile = "" <;>
    simp [hns, hrb, htk, deploymentsOf, serviceAccountsOf, clusterRolesOf,
      clusterRoleBindingsOf, newDeployment, newServiceAccount, newClusterRole,
      newClusterRoleBinding, rbac.ServiceAccountKind, List.modifyHead]

/-- Witness of `rbac_objects_consistent`: a run with RBAC enabled. -/
theorem rbac_objects_consistent_witness :
    (installer sampleGlobals sampleEnv { enableRBAC := true }).result = .ok () ∧
      ∃ d, deploymentsOf (marshalled
          (installer sampleGlobals sampleEnv { enableRBAC := true }).events) = [d] ∧
        d.Spec.Template.Spec.ServiceAccountName = "guard" :=
  ⟨rfl, by
    obtain ⟨d, h1, -, h3, -⟩ :=
      rbac_objects_consistent sampleGlobals sampleEnv { enableRBAC := true } rfl
    obtain ⟨sa, cr, crb, -, -, -, h4, -⟩ := h3 rfl
    exact ⟨d, h1, h4⟩⟩

/-! ## `init client` and `get token` -/

theorem ToLower_empty (lower : Char → Char) : ToLower lower "" = "" := rfl

theorem issueClient_opens_store (g : Globals) (env : ClientEnv) (cfg : Config) :
    (issueClient g env cfg).events.head?
      = some (.NewCertStore (env.Join g.rootDir "pki") cfg.Organization) := by
  unfold issueClient
  simp only [Proc.call_bind, Proc.after_events, List.head?_cons]

theorem initClient_of_config (g : Globals) (env : ClientEnv) (args : List String) (org : String)
    (cfg : Config) (h : clientConfig env args org = pure cfg) :
    initClient g env args org = issueClient g env cfg := by
  unfold initClient
  rw [h, Proc.pure_bind_eq]

theorem initClient_of_stop (g : Globals) (env : ClientEnv) (args : List String) (org : String)
    (e : Exit) (h : clientConfig env args org = Proc.stop e) :
    initClient g env args org = Proc.stop e := by
  unfold initClient
  rw [h, Proc.stop_bind]

theorem clientConfig_cases (env : ClientEnv) (args : List String) (org : String) :
    (args = [] → clientConfig env args org = Proc.stop .missingClientName) ∧
    (2 ≤ args.length → clientConfig env args org = Proc.stop .multipleClientName) ∧
    ∀ name, args = [name] →
      (ToLower env.lower org = "github" →
        clientConfig env args org = pure
          { CommonName := name, Organization := ["Github"],
            Usages := [.ExtKeyUsageClientAuth] }) ∧
      (ToLower env.lower org = "google" →
        clientConfig env args org = pure
          { CommonName := name, Organization := ["Google"],
            Usages := [.ExtKeyUsageClientAuth] }) ∧
      (ToLower env.lower org = "appscode" →
        clientConfig env args org = pure
          { CommonName := name, Organization := ["Appscode"],
            Usages := [.ExtKeyUsageClientAuth] }) ∧
      (ToLower env.lower org = "" →
        clientConfig env args org = Proc.stop .missingOrganization) ∧
      (ToLower env.lower org ∉ ["github", "google", "appscode", ""] →
        clientConfig env args org = Proc.stop (.unknownOrganization (ToLower env.lower org))) := by
  refine ⟨?_, ?_, ?_⟩
  · rintro rfl
    simp [clientConfig]
  · intro h
    have h0 : ¬args.length = 0 := by omega
    have h1 : args.length > 1 := by omega
    simp [clientConfig, h0, h1]
  · rintro name rfl
    refine ⟨?_, ?_, ?_, ?_, ?_⟩
    · intro h
      simp [clientConfig, h]
    · intro h
      simp [clientConfig, h]
    · intro h
      simp [clientConfig, h]
    · intro h
      simp [clientConfig, h]
    · intro h
      simp only [List.mem_cons, List.mem_singleton, List.not_mem_nil, or_false, not_or] at h
      obtain ⟨h1, h2, h3, h4⟩ := h
      simp [clientConfig, h1, h2, h3, h4]

/-- C8: `init client` stops with the missing-name error on no argument and with
the multiple-name error on more than one, whatever the flag; on exactly one
argument it goes on to the store exactly when the lower-cased flag is "github",
"google" or "appscode", with the request that has the argument as common name,
client-auth as only extended key usage and organization ["Github"], ["Google"]
or ["Appscode"], the store being opened first and scoped to that organization;
an empty flag stops with the missing-organization error and any other flag with
the different unknown-organization error, and a run that stops at any of these
checks has called no collaborator. -/
theorem initClient_preconditions (g : Globals) (env : ClientEnv) (args : List String)
    (org : String) :
    (args = [] → initClient g env args org = Proc.stop .missingClientName) ∧
    (2 ≤ args.length → initClient g env args org = Proc.stop .multipleClientName) ∧
    (∀ name, args = [name] →
      (ToLower env.lower org = "github" →
        initClient g env args org = issueClient g env
          { CommonName := name, Organization := ["Github"],
            Usages := [.ExtKeyUsageClientAuth] }) ∧
      (ToLower env.lower org = "google" →
        initClient g env args org = issueClient g env
          { CommonName := name, Organization := ["Google"],
            Usages := [.ExtKeyUsageClientAuth] }) ∧
      (ToLower env.lower org = "appscode" →
        initClient g env args org = issueClient g env
          { CommonName := name, Organization := ["Appscode"],
            Usages := [.ExtKeyUsageClientAuth] }) ∧
      (org = "" ∨ ToLower env.lower org = "" →
        initClient g env args org = Proc.stop .missingOrganization) ∧
      (ToLower env.lower org ∉ ["github", "google", "appscode", ""] →
        initClient g env args org
          = Proc.stop (.unknownOrganization (ToLower env.lower org)))) ∧
    (∀ cfg, (issueClient g env cfg).events.head?
      = some (.NewCertStore (env.Join g.rootDir "pki") cfg.Organization)) ∧
    ((initClient g env args org).events ≠ [] ↔
      args.length = 1 ∧ ToLower env.lower org ∈ ["github", "google", "appscode"]) ∧
    Exit.missingOrganization ≠ Exit.unknownOrganization (ToLower env.lower org) := by
  obtain ⟨c1, c2, c3⟩ := clientConfig_cases env args org
  have hne : ∀ cfg, (issueClient g env cfg).events ≠ [] := by
    intro cfg hnil
    have := issueClient_opens_store g env cfg
    rw [hnil] at this
    simp at this
  refine ⟨fun h => initClient_of_stop _ _ _ _ _ (c1 h), fun h => initClient_of_stop _ _ _ _ _ (c2 h),
    ?_, issueClient_opens_store g env, ?_, by simp⟩
  · intro name hn
    obtain ⟨d1, d2, d3, d4, d5⟩ := c3 name hn
    refine ⟨fun h => initClient_of_config _ _ _ _ _ (d1 h),
      fun h => initClient_of_config _ _ _ _ _ (d2 h),
      fun h => initClient_of_config _ _ _ _ _ (d3 h), ?_,
      fun h => initClient_of_stop _ _ _ _ _ (d5 h)⟩
    rintro (h | h)
    · exact initClient_of_stop _ _ _ _ _ (d4 (by rw [h, ToLower_empty]))
    · exact initClient_of_stop _ _ _ _ _ (d4 h)
  · constructor
    · intro hev
      rcases args with _ | ⟨name, _ | ⟨b, rest⟩⟩
      · rw [initClient_of_stop _ _ _ _ _ (c1 rfl)] at hev
        simp at hev
      · obtain ⟨d1, d2, d3, d4, d5⟩ := c3 name rfl
        refine ⟨rfl, ?_⟩
        by_contra hmem
        simp only [List.mem_cons, List.mem_singleton, List.not_mem_nil, or_false, not_or]
          at hmem
        by_cases he : ToLower env.lower org = ""
        · rw [initClient_of_stop _ _ _ _ _ (d4 he)] at hev
          simp at hev
        · rw [initClient_of_stop _ _ _ _ _ (d5 (by simp [hmem.1, hmem.2.1, hmem.2.2, he]))]
            at hev
          simp at hev
      · rw [initClient_of_stop _ _ _ _ _ (c2 (by simp))] at hev
        simp at hev
    · rintro ⟨hlen, hmem⟩
      rcases args with _ | ⟨name, _ | ⟨b, rest⟩⟩
      · simp at hlen
      · obtain ⟨d1, d2, d3, -, -⟩ := c3 name rfl
        simp only [List.mem_cons, List.mem_singleton, List.not_mem_nil, or_false] at hmem
        rcases hmem with h | h | h
        · rw [initClient_of_config _ _ _ _ _ (d1 h)]
          exact hne _
        · rw [initClient_of_config _ _ _ _ _ (d2 h)]
          exact hne _
        · rw [initClient_of_config _ _ _ _ _ (d3 h)]
          exact hne _
      · simp at hlen

/-- An example of `init client`: the flag is lower-cased before it is matched. -/
theorem initClient_example :
    (initClient sampleGlobals sampleClientEnv ["alice"] "GitHub").events
        = [.NewCertStore "/root/.guard/pki" ["Github"], .IsExists "alice", .LoadCA,
            .NewServerCertPair "alice" {}, .WriteBytes "alice" [1] [2], .Successln "/pki"] ∧
      initClient sampleGlobals sampleClientEnv ["alice"] "gitlab"
        = Proc.stop (.unknownOrganization "gitlab") ∧
      initClient sampleGlobals sampleClientEnv ["alice", "bob"] "github"
        = Proc.stop .multipleClientName := by
  refine ⟨by decide, rfl, rfl⟩

theorem getToken_of_provider (env : TokenEnv) (org : String) (p : Provider)
    (h : ToLower env.lower org = p.OrgType) : (getToken env org).events = [.IssueToken p] := by
  unfold getToken
  cases p <;> simp only [Provider.OrgType] at h <;> simp only [h, Provider.OrgType]
  · simp
  · simp
  · cases env.googleIssueToken <;> simp
  · cases env.appscodeIssueToken <;> simp
  · cases env.ldapIssueToken <;> simp

/-- C9: `get token` calls exactly one issuer, the one whose organization type is
the lower-cased identifier, and nothing else; when the lower-cased identifier is
no organization type it calls none and stops with the missing-organization
error if the identifier is empty and with the different unknown-organization
error otherwise. -/
theorem getToken_dispatch (env : TokenEnv) (org : String) :
    (∀ p : Provider, ToLower env.lower org = p.OrgType →
      (getToken env org).events = [.IssueToken p]) ∧
    ((∀ p : Provider, ToLower env.lower org ≠ p.OrgType) →
      (ToLower env.lower org = "" → getToken env org = Proc.stop .missingOrganization) ∧
      (ToLower env.lower org ≠ "" →
        getToken env org = Proc.stop (.unknownOrganization (ToLower env.lower org)))) ∧
    (org = "" → getToken env org = Proc.stop .missingOrganization) ∧
    Exit.missingOrganization ≠ Exit.unknownOrganization (ToLower env.lower org) := by
  refine ⟨getToken_of_provider env org, ?_, ?_, by simp⟩
  · intro h
    have h1 := h .github
    have h2 := h .gitlab
    have h3 := h .google
    have h4 := h .appscode
    have h5 := h .ldap
    constructor
    · intro he
      unfold getToken
      simp [he, Provider.OrgType]
    · intro he
      unfold getToken
      simp only [h1, h2, h3, h4, h5, he, ↓reduceIte]
  · rintro rfl
    unfold getToken
    simp [ToLower_empty, Provider.OrgType]

/-- An example of `get token`: one issuer is called, or none. -/
theorem getToken_example :
    (getToken sampleTokenEnv "LDAP").events = [.IssueToken .ldap] ∧
      getToken sampleTokenEnv "okta" = Proc.stop (.unknownOrganization "okta") ∧
      getToken sampleTokenEnv "" = Proc.stop .missingOrganization := by
  refine ⟨by decide, rfl, rfl⟩

end Guard
